import Mathlib

/-!
Verification development for the `jscompiler` JavaScript-to-JavaScript
minifier.  The definitions below are shallow embeddings of the Python
sources in `src/jscompiler/`:

* `precedence.py`  — operator/node precedence table;
* `code_generator.py` — the token-emitting AST walker;
* `code_consumer.py`  — the minimal-whitespace token sink;
* `scope_builder.py` / `rename.py` — scopes, `eval` tracking, renaming;
* `name_generator.py` — the short-name enumerator.

Python `unicode` strings are modelled as `String`, Python lists as `List`,
Python `None`-or-value results as `Option`, and operations that can raise
(`IndexError` on list indexing) return `Option` with `none` for the raise.
Sets are modelled as lists with membership, and `collections.Counter` /
`OrderedDict` iteration order is modelled as insertion order.
-/

namespace JSC

/-- AST node taxonomy of the parser consumed by the compiler, as listed in
the spec's data model and matched on by `code_generator.py`.  Node classes
become constructors; node fields keep their source names and order.
Function parameters are unicode strings in the source, hence `List String`
here, and optional fields are `Option`. -/
inductive Node where
  | Name (value : String)
  | NumberLiteral (value : String)
  | StringLiteral (value : String)
  | RegExpLiteral (pattern : String) (flags : String)
  | ThisNode
  | NullNode
  | TrueNode
  | FalseNode
  | ArrayLiteral (elements : List Node)
  | ObjectLiteral (properties : List Node)
  | ObjectProperty (name : Node) (value : Node)
  | PropertyName (value : String)
  | Elision
  | Assignment (target : Node) (op : String) (value : Node)
  | Conditional (condition : Node) (then_expression : Node) (else_expression : Node)
  | BinaryOperation (left : Node) (op : String) (right : Node)
  | CompareOperation (left : Node) (op : String) (right : Node)
  | UnaryOperation (op : String) (expression : Node)
  | PrefixCountOperation (op : String) (expression : Node)
  | PostfixCountOperation (expression : Node) (op : String)
  | TypeofOperation (expression : Node)
  | DeleteOperation (expression : Node)
  | VoidOperation (expression : Node)
  | CallExpression (expression : Node) (arguments : List Node)
  | NewExpression (expression : Node) (arguments : Option (List Node))
  | DotProperty (object : Node) (key : Node)
  | BracketProperty (object : Node) (key : Node)
  | FunctionExpression (name : Option String) (parameters : List String) (body : List Node)
  | Block (statements : List Node)
  | VariableStatement (declarations : List Node)
  | VariableDeclaration (name : String) (value : Option Node)
  | EmptyStatement
  | ExpressionStatement (expression : Node)
  | IfStatement (condition : Node) (then_statement : Node) (else_statement : Option Node)
  | DoWhileStatement (body : Node) (condition : Node)
  | WhileStatement (condition : Node) (body : Node)
  | ForStatement (init : Node) (condition : Node) (next : Node) (body : Node)
  | ForInStatement (each : Node) (enumerable : Node) (body : Node)
  | ContinueStatement (target : Option Node)
  | BreakStatement (target : Option Node)
  | ReturnStatement (expression : Node)
  | WithStatement (expression : Node) (statement : Node)
  | SwitchStatement (expression : Node) (cases : List Node)
  | CaseClause (label : Option Node) (statements : List Node)
  | LabelledStatement (label : String) (statement : Node)
  | Throw (exception : Node)
  | TryStatement (try_block : Node) (catch_var : Option Node)
      (catch_block : Option Node) (finally_block : Option Node)
  | FunctionDeclaration (name : String) (parameters : List String) (body : List Node)
  | Program (statements : List Node)
  | SourceElements (statements : List Node)

set_option maxHeartbeats 2000000 in
mutual

/-- Structural equality of nodes.  The Python generator stores nodes in the
`marked_for_parens` set and tests membership; two distinct-but-equal
subtrees never race for the same mark (the marked node is the lexically
leftmost node of its statement and is emitted, and its mark consumed,
before any other node), so structural equality models the source's
identity-based set faithfully for everything the generator observes. -/
def nodeBeq : Node → Node → Bool
  | .Name a, .Name b => a == b
  | .NumberLiteral a, .NumberLiteral b => a == b
  | .StringLiteral a, .StringLiteral b => a == b
  | .RegExpLiteral p f, .RegExpLiteral q g => p == q && f == g
  | .ThisNode, .ThisNode => true
  | .NullNode, .NullNode => true
  | .TrueNode, .TrueNode => true
  | .FalseNode, .FalseNode => true
  | .ArrayLiteral xs, .ArrayLiteral ys => nodeListBeq xs ys
  | .ObjectLiteral xs, .ObjectLiteral ys => nodeListBeq xs ys
  | .ObjectProperty n v, .ObjectProperty m w => nodeBeq n m && nodeBeq v w
  | .PropertyName a, .PropertyName b => a == b
  | .Elision, .Elision => true
  | .Assignment t o v, .Assignment u p w => nodeBeq t u && o == p && nodeBeq v w
  | .Conditional c t e, .Conditional d u f => nodeBeq c d && nodeBeq t u && nodeBeq e f
  | .BinaryOperation l o r, .BinaryOperation m p s => nodeBeq l m && o == p && nodeBeq r s
  | .CompareOperation l o r, .CompareOperation m p s => nodeBeq l m && o == p && nodeBeq r s
  | .UnaryOperation o e, .UnaryOperation p f => o == p && nodeBeq e f
  | .PrefixCountOperation o e, .PrefixCountOperation p f => o == p && nodeBeq e f
  | .PostfixCountOperation e o, .PostfixCountOperation f p => nodeBeq e f && o == p
  | .TypeofOperation e, .TypeofOperation f => nodeBeq e f
  | .DeleteOperation e, .DeleteOperation f => nodeBeq e f
  | .VoidOperation e, .VoidOperation f => nodeBeq e f
  | .CallExpression e a, .CallExpression f b => nodeBeq e f && nodeListBeq a b
  | .NewExpression e a, .NewExpression f b => nodeBeq e f && nodeOptListBeq a b
  | .DotProperty o k, .DotProperty p l => nodeBeq o p && nodeBeq k l
  | .BracketProperty o k, .BracketProperty p l => nodeBeq o p && nodeBeq k l
  | .FunctionExpression n p b, .FunctionExpression m q c =>
    n == m && p == q && nodeListBeq b c
  | .Block xs, .Block ys => nodeListBeq xs ys
  | .VariableStatement xs, .VariableStatement ys => nodeListBeq xs ys
  | .VariableDeclaration n v, .VariableDeclaration m w => n == m && nodeOptBeq v w
  | .EmptyStatement, .EmptyStatement => true
  | .ExpressionStatement e, .ExpressionStatement f => nodeBeq e f
  | .IfStatement c t e, .IfStatement d u f => nodeBeq c d && nodeBeq t u && nodeOptBeq e f
  | .DoWhileStatement b c, .DoWhileStatement d e => nodeBeq b d && nodeBeq c e
  | .WhileStatement c b, .WhileStatement d e => nodeBeq c d && nodeBeq b e
  | .ForStatement i c n b, .ForStatement j d m e =>
    nodeBeq i j && nodeBeq c d && nodeBeq n m && nodeBeq b e
  | .ForInStatement a e b, .ForInStatement c f d =>
    nodeBeq a c && nodeBeq e f && nodeBeq b d
  | .ContinueStatement t, .ContinueStatement u => nodeOptBeq t u
  | .BreakStatement t, .BreakStatement u => nodeOptBeq t u
  | .ReturnStatement e, .ReturnStatement f => nodeBeq e f
  | .WithStatement e s, .WithStatement f t => nodeBeq e f && nodeBeq s t
  | .SwitchStatement e c, .SwitchStatement f d => nodeBeq e f && nodeListBeq c d
  | .CaseClause l s, .CaseClause m t => nodeOptBeq l m && nodeListBeq s t
  | .LabelledStatement l s, .LabelledStatement m t => l == m && nodeBeq s t
  | .Throw e, .Throw f => nodeBeq e f
  | .TryStatement t cv cb fb, .TryStatement u dv db gb =>
    nodeBeq t u && nodeOptBeq cv dv && nodeOptBeq cb db && nodeOptBeq fb gb
  | .FunctionDeclaration n p b, .FunctionDeclaration m q c =>
    n == m && p == q && nodeListBeq b c
  | .Program xs, .Program ys => nodeListBeq xs ys
  | .SourceElements xs, .SourceElements ys => nodeListBeq xs ys
  | _, _ => false
termination_by structural a _ => a

/-- Elementwise `nodeBeq` on lists of nodes. -/
def nodeListBeq : List Node → List Node → Bool
  | [], [] => true
  | x :: xs, y :: ys => nodeBeq x y && nodeListBeq xs ys
  | _, _ => false
termination_by structural a _ => a

/-- `nodeBeq` lifted to optional nodes. -/
def nodeOptBeq : Option Node → Option Node → Bool
  | none, none => true
  | some x, some y => nodeBeq x y
  | _, _ => false
termination_by structural a _ => a

/-- `nodeListBeq` lifted to optional argument lists. -/
def nodeOptListBeq : Option (List Node) → Option (List Node) → Bool
  | none, none => true
  | some x, some y => nodeListBeq x y
  | _, _ => false
termination_by structural a _ => a

end

/-- BINARY_OPS of `precedence.py`: operator text to precedence class.
`none` models a `KeyError` for an operator outside the table. -/
def BINARY_OPS (op : String) : Option Nat :=
  match op with
  | "=" => some 2
  | "|=" => some 2
  | "^=" => some 2
  | "&=" => some 2
  | "<<=" => some 2
  | ">>=" => some 2
  | ">>>=" => some 2
  | "+=" => some 2
  | "-=" => some 2
  | "*=" => some 2
  | "/=" => some 2
  | "%=" => some 2
  | "," => some 1
  | "||" => some 4
  | "&&" => some 5
  | "|" => some 6
  | "^" => some 7
  | "&" => some 8
  | "<<" => some 11
  | ">>" => some 11
  | ">>>" => some 11
  | "+" => some 12
  | "-" => some 12
  | "*" => some 13
  | "/" => some 13
  | "%" => some 13
  | "==" => some 9
  | "!=" => some 9
  | "!==" => some 9
  | "===" => some 9
  | "<" => some 10
  | ">" => some 10
  | "<=" => some 10
  | ">=" => some 10
  | "instanceof" => some 10
  | "in" => some 10
  | _ => none

/-- UNARY_OPS of `precedence.py`. -/
def UNARY_OPS (op : String) : Option Nat :=
  match op with
  | "!" => some 14
  | "~" => some 14
  | "+" => some 14
  | "-" => some 14
  | _ => none

/-- The `precedence` function of `precedence.py`.  The class dispatch of
NODE_TYPE_TO_PRECEDENCE comes first; a `UnaryOperation` looks its operator
up in UNARY_OPS; every other node looks its `op` field up in BINARY_OPS.
A node without an `op` field (AttributeError) or an operator outside the
tables (KeyError) falls back to 20, as the `except` clause does. -/
def precedence : Node → Nat
  | .TypeofOperation _ => 14
  | .DeleteOperation _ => 14
  | .VoidOperation _ => 14
  | .PrefixCountOperation _ _ => 15
  | .PostfixCountOperation _ _ => 15
  | .Conditional _ _ _ => 3
  | .CallExpression _ _ => 16
  | .DotProperty _ _ => 17
  | .BracketProperty _ _ => 17
  | .NewExpression _ _ => 17
  | .UnaryOperation op _ => (UNARY_OPS op).getD 20
  | .Assignment _ op _ => (BINARY_OPS op).getD 20
  | .BinaryOperation _ op _ => (BINARY_OPS op).getD 20
  | .CompareOperation _ op _ => (BINARY_OPS op).getD 20
  | _ => 20

/-- Python's `self.precedence(left)` where `left` may be `None`: the
AttributeError on `None.op` is caught and yields the default 20. -/
def precedenceOpt : Option Node → Nat
  | some n => precedence n
  | none => 20

/-- CodeGenerator.needs_semicolon of `code_generator.py`, line for line:
one `getattr` unwrapping step for the BODY_MAY_NEED_SEMICOLON classes
(`WhileStatement`/`ForStatement`/`ForInStatement` take `body`,
`WithStatement` takes `statement`), then an `IfStatement` returns `True`
unconditionally (the branch reassignments of `node` before `return True`
are dead in the source and drop out here), then membership in
NEEDS_SEMICOLON. -/
def needs_semicolon (node : Node) : Bool :=
  let node := match node with
    | .WhileStatement _ body => body
    | .WithStatement _ statement => statement
    | .ForStatement _ _ _ body => body
    | .ForInStatement _ _ body => body
    | n => n
  match node with
  | .IfStatement _ _ _ => true
  | .DoWhileStatement _ _ => true
  | .ExpressionStatement _ => true
  | .ContinueStatement _ => true
  | .BreakStatement _ => true
  | .ReturnStatement _ => true
  | .VariableStatement _ => true
  | _ => false

/-- Token kinds of the `bigrig.token` module as the spec's data model lists
them: keywords, identifiers, literal markers, punctuation, operators, the
sink-only SPACE marker and EOF. -/
inductive TokType where
  | RETURN | NEW | DELETE | TYPEOF | NULL | THIS | FALSE | TRUE | THROW
  | IN | INSTANCEOF | TRY | FUNCTION | IF | ELSE | SWITCH | CASE | DEFAULT
  | WHILE | DO | FOR | BREAK | CONTINUE | VAR | WITH | CATCH | FINALLY | VOID
  | IDENTIFIER | RESERVED
  | STRING | DECIMAL | REGEXP
  | LPAREN | RPAREN | LBRACE | RBRACE | LBRACKET | RBRACKET
  | SEMICOLON | COMMA | COLON | DOT | QUESTION
  | ASSIGN | ASSIGN_BITOR | ASSIGN_BITXOR | ASSIGN_BITAND | ASSIGN_LSH
  | ASSIGN_RSH | ASSIGN_URSH | ASSIGN_ADD | ASSIGN_SUB | ASSIGN_MUL
  | ASSIGN_DIV | ASSIGN_MOD
  | OR | AND | BITOR | BITXOR | BITAND | LSH | RSH | URSH
  | ADD | SUB | MUL | DIV | MOD
  | EQ | NE | SHEQ | SHNE | LT | GT | LE | GE
  | INC | DEC | BITNOT | NOT
  | SPACE | EOF
  deriving Repr, DecidableEq

/-- A token as `bigrig.token.Token`: a kind and its text. -/
structure Token where
  type : TokType
  value : String
  deriving Repr, DecidableEq

/-- KEYWORD_TO_TYPE of the token module: keyword text to its kind, `none`
for a non-keyword (a KeyError in the source).  Every keyword the code
generator reports is a key. -/
def KEYWORD_TO_TYPE (value : String) : Option TokType :=
  match value with
  | "return" => some .RETURN
  | "new" => some .NEW
  | "delete" => some .DELETE
  | "typeof" => some .TYPEOF
  | "null" => some .NULL
  | "this" => some .THIS
  | "false" => some .FALSE
  | "true" => some .TRUE
  | "throw" => some .THROW
  | "in" => some .IN
  | "instanceof" => some .INSTANCEOF
  | "try" => some .TRY
  | "function" => some .FUNCTION
  | "if" => some .IF
  | "else" => some .ELSE
  | "switch" => some .SWITCH
  | "case" => some .CASE
  | "default" => some .DEFAULT
  | "while" => some .WHILE
  | "do" => some .DO
  | "for" => some .FOR
  | "break" => some .BREAK
  | "continue" => some .CONTINUE
  | "var" => some .VAR
  | "with" => some .WITH
  | "catch" => some .CATCH
  | "finally" => some .FINALLY
  | "void" => some .VOID
  | _ => none

/-- LITERAL_TO_TYPE of the token module for the punctuation texts the code
generator passes to `report_literal`. -/
def LITERAL_TO_TYPE (value : String) : Option TokType :=
  match value with
  | "(" => some .LPAREN
  | ")" => some .RPAREN
  | "\x7b" => some .LBRACE
  | "\x7d" => some .RBRACE
  | "[" => some .LBRACKET
  | "]" => some .RBRACKET
  | ";" => some .SEMICOLON
  | "," => some .COMMA
  | ":" => some .COLON
  | "." => some .DOT
  | "?" => some .QUESTION
  | "=" => some .ASSIGN
  | _ => none

/-- BINARY_OP_TO_TYPE of `code_generator.py`. -/
def BINARY_OP_TO_TYPE (value : String) : Option TokType :=
  match value with
  | "=" => some .ASSIGN
  | "|=" => some .ASSIGN_BITOR
  | "^=" => some .ASSIGN_BITXOR
  | "&=" => some .ASSIGN_BITAND
  | "<<=" => some .ASSIGN_LSH
  | ">>=" => some .ASSIGN_RSH
  | ">>>=" => some .ASSIGN_URSH
  | "+=" => some .ASSIGN_ADD
  | "-=" => some .ASSIGN_SUB
  | "*=" => some .ASSIGN_MUL
  | "/=" => some .ASSIGN_DIV
  | "%=" => some .ASSIGN_MOD
  | "," => some .COMMA
  | "||" => some .OR
  | "&&" => some .AND
  | "|" => some .BITOR
  | "^" => some .BITXOR
  | "&" => some .BITAND
  | "<<" => some .LSH
  | ">>" => some .RSH
  | ">>>" => some .URSH
  | "+" => some .ADD
  | "-" => some .SUB
  | "*" => some .MUL
  | "/" => some .DIV
  | "%" => some .MOD
  | "==" => some .EQ
  | "!=" => some .NE
  | "===" => some .SHEQ
  | "!==" => some .SHNE
  | "<" => some .LT
  | ">" => some .GT
  | "<=" => some .LE
  | ">=" => some .GE
  | "instanceof" => some .INSTANCEOF
  | "in" => some .IN
  | _ => none

/-- UNARY_OP_TO_TYPE of `code_generator.py`. -/
def UNARY_OP_TO_TYPE (value : String) : Option TokType :=
  match value with
  | "delete" => some .DELETE
  | "void" => some .VOID
  | "typeof" => some .TYPEOF
  | "++" => some .INC
  | "--" => some .DEC
  | "+" => some .ADD
  | "-" => some .SUB
  | "~" => some .BITNOT
  | "!" => some .NOT
  | _ => none

/-- CodeGenerator.report_keyword: a token of the keyword's kind.  The
`getD .RESERVED` branch is unreachable: every call site passes a key of
KEYWORD_TO_TYPE. -/
def report_keyword (value : String) : Token :=
  ⟨(KEYWORD_TO_TYPE value).getD .RESERVED, value⟩

/-- CodeGenerator.report_literal: a token of the punctuation's kind. -/
def report_literal (value : String) : Token :=
  ⟨(LITERAL_TO_TYPE value).getD .RESERVED, value⟩

/-- CodeGenerator.report_binary_op: keywords (`instanceof`, `in`) go
through `report_keyword`; the rest through BINARY_OP_TO_TYPE. -/
def report_binary_op (value : String) : Token :=
  match KEYWORD_TO_TYPE value with
  | some _ => report_keyword value
  | none => ⟨(BINARY_OP_TO_TYPE value).getD .RESERVED, value⟩

/-- CodeGenerator.report_unary_op, the same dispatch for unary operators. -/
def report_unary_op (value : String) : Token :=
  match KEYWORD_TO_TYPE value with
  | some _ => report_keyword value
  | none => ⟨(UNARY_OP_TO_TYPE value).getD .RESERVED, value⟩

/-- CodeGenerator.report_prefix_op / report_postfix_op: straight
UNARY_OP_TO_TYPE lookup. -/
def report_count_op (value : String) : Token :=
  ⟨(UNARY_OP_TO_TYPE value).getD .RESERVED, value⟩

/-- Membership in the `marked_for_parens` set, by `nodeBeq`. -/
def containsNode (m : List Node) (n : Node) : Bool :=
  m.any (fun x => nodeBeq x n)

/-- Python `set.add` on the `marked_for_parens` set. -/
def addNode (m : List Node) (n : Node) : List Node :=
  if containsNode m n then m else m ++ [n]

/-- Python `set.discard` / `set.remove` on the `marked_for_parens` set. -/
def removeNode (m : List Node) (n : Node) : List Node :=
  m.eraseP (fun x => nodeBeq x n)

/-- The `mark_leftmost_for_parens` closure of
CodeGenerator.visit_ExpressionStatement: walk the leftmost chain (object
of a `PropertyAccess`, expression of a `PostfixCountOperation` or
`CallExpression`, left of a `BinaryOperation` or `CompareOperation`,
target of an `Assignment`); stop when `precedence(node) >
precedence(left)` (with `precedence(None) = 20` for a node that has no
leftmost child); return the left child to mark when it is a
`FunctionExpression` or `ObjectLiteral`, else recurse into it. -/
def mark_leftmost_for_parens : Node → Option Node
  | .DotProperty object key =>
    if precedence (.DotProperty object key) > precedence object then none
    else match object with
      | .FunctionExpression n p b => some (.FunctionExpression n p b)
      | .ObjectLiteral ps => some (.ObjectLiteral ps)
      | _ => mark_leftmost_for_parens object
  | .BracketProperty object key =>
    if precedence (.BracketProperty object key) > precedence object then none
    else match object with
      | .FunctionExpression n p b => some (.FunctionExpression n p b)
      | .ObjectLiteral ps => some (.ObjectLiteral ps)
      | _ => mark_leftmost_for_parens object
  | .PostfixCountOperation expression op =>
    if precedence (.PostfixCountOperation expression op) > precedence expression then none
    else match expression with
      | .FunctionExpression n p b => some (.FunctionExpression n p b)
      | .ObjectLiteral ps => some (.ObjectLiteral ps)
      | _ => mark_leftmost_for_parens expression
  | .CallExpression expression args =>
    if precedence (.CallExpression expression args) > precedence expression then none
    else match expression with
      | .FunctionExpression n p b => some (.FunctionExpression n p b)
      | .ObjectLiteral ps => some (.ObjectLiteral ps)
      | _ => mark_leftmost_for_parens expression
  | .BinaryOperation left op right =>
    if precedence (.BinaryOperation left op right) > precedence left then none
    else match left with
      | .FunctionExpression n p b => some (.FunctionExpression n p b)
      | .ObjectLiteral ps => some (.ObjectLiteral ps)
      | _ => mark_leftmost_for_parens left
  | .CompareOperation left op right =>
    if precedence (.CompareOperation left op right) > precedence left then none
    else match left with
      | .FunctionExpression n p b => some (.FunctionExpression n p b)
      | .ObjectLiteral ps => some (.ObjectLiteral ps)
      | _ => mark_leftmost_for_parens left
  | .Assignment target op value =>
    if precedence (.Assignment target op value) > precedence target then none
    else match target with
      | .FunctionExpression n p b => some (.FunctionExpression n p b)
      | .ObjectLiteral ps => some (.ObjectLiteral ps)
      | _ => mark_leftmost_for_parens target
  | _ => none

/-- CodeGenerator.visit_comma_list specialised to a parameter list, whose
elements are unicode strings reported as identifiers (visit_unicode). -/
def emitParams : List String → List Token
  | [] => []
  | [p] => [⟨.IDENTIFIER, p⟩]
  | p :: rest => ⟨.IDENTIFIER, p⟩ :: report_literal "," :: emitParams rest

/-- Does the last statement of a case clause need a semicolon?  Models
`case.statements[-1:] and self.needs_semicolon(case.statements[-1])` in
CodeGenerator.visit_SwitchStatement. -/
def caseNeedsSemicolon : Node → Bool
  | .CaseClause _ statements =>
    match statements.getLast? with
    | some s => needs_semicolon s
    | none => false
  | _ => false

/-- CodeGenerator.parenthesize's surrounding tokens: `(` … `)`. -/
def wrapParens (ts : List Token) : List Token :=
  report_literal "(" :: ts ++ [report_literal ")"]

/-- CodeGenerator.maybe_parens, applied to an already-emitted child: the
child's tokens are written either way, `parenthesize` merely surrounds
them, so the decision reduces to wrapping the child's token list iff the
condition holds. -/
def maybeWrap (cond : Bool) (ts : List Token) : List Token :=
  if cond then wrapParens ts else ts

set_option maxHeartbeats 4000000 in
mutual

/-- The visitor dispatch of CodeGenerator (`code_generator.py`), one match
arm per `visit_*` method, emitting the reported tokens in order.  The
`marked_for_parens` set is threaded through as `m`; each call returns the
tokens it reports and the set as it stands afterwards.  Calls to
`maybe_parens(child, node)` appear as `maybeWrap (precedence child <
precedence node)` around the child's emission, and `parenthesize(child)`
as `wrapParens`; both write the child exactly once, as the source does. -/
def emitNode (m : List Node) (n : Node) : List Token × List Node :=
  match n with
  | .Name value => ([⟨.IDENTIFIER, value⟩], m)
  | .NumberLiteral value => ([⟨.DECIMAL, value⟩], m)
  | .StringLiteral value => ([⟨.STRING, value⟩], m)
  | .RegExpLiteral pattern flags =>
    (⟨.REGEXP, pattern⟩ :: (if flags ≠ "" then [⟨.IDENTIFIER, flags⟩] else []), m)
  | .ThisNode => ([report_keyword "this"], m)
  | .NullNode => ([report_keyword "null"], m)
  | .TrueNode => ([report_keyword "true"], m)
  | .FalseNode => ([report_keyword "false"], m)
  | .ArrayLiteral elements =>
    let (ts, m1) := emitCommaList m elements
    (report_literal "[" :: ts ++ [report_literal "]"], m1)
  | .ObjectLiteral properties =>
    let node := Node.ObjectLiteral properties
    let parens := containsNode m node
    let (ts, m1) := emitCommaList m properties
    let toks := (if parens then [report_literal "("] else [])
      ++ report_literal "\x7b" :: ts ++ [report_literal "\x7d"]
      ++ (if parens then [report_literal ")"] else [])
    (toks, if parens then removeNode m1 node else m1)
  | .ObjectProperty name value =>
    let (tn, m1) := emitNode m name
    let (tv, m2) := emitNode m1 value
    (tn ++ report_literal ":" :: tv, m2)
  | .PropertyName value => ([⟨.IDENTIFIER, value⟩], m)
  | .Elision => ([], m)
  | .Assignment target op value =>
    let p := precedence (.Assignment target op value)
    let (tt, m1) := emitNode m target
    let (tv, m2) := emitNode m1 value
    (maybeWrap (precedence target < p) tt
      ++ report_binary_op op :: maybeWrap (precedence value < p) tv, m2)
  | .Conditional condition then_expression else_expression =>
    let p := precedence (.Conditional condition then_expression else_expression)
    let (tc, m1) := emitNode m condition
    let (tt, m2) := emitNode m1 then_expression
    let (te, m3) := emitNode m2 else_expression
    (maybeWrap (precedence condition < p) tc
      ++ report_literal "?" :: maybeWrap (precedence then_expression < p) tt
      ++ report_literal ":" :: maybeWrap (precedence else_expression < p) te, m3)
  | .BinaryOperation left op right =>
    let p := precedence (.BinaryOperation left op right)
    let (tl, m1) := emitNode m left
    let (tr, m2) := emitNode m1 right
    (maybeWrap (precedence left < p) tl
      ++ report_binary_op op :: maybeWrap (precedence right ≤ p) tr, m2)
  | .CompareOperation left op right =>
    let p := precedence (.CompareOperation left op right)
    let (tl, m1) := emitNode m left
    let (tr, m2) := emitNode m1 right
    (maybeWrap (precedence left < p) tl
      ++ report_binary_op op :: maybeWrap (precedence right < p) tr, m2)
  | .UnaryOperation op expression =>
    let p := precedence (.UnaryOperation op expression)
    let (te, m1) := emitNode m expression
    (report_unary_op op :: maybeWrap (precedence expression < p) te, m1)
  | .PrefixCountOperation op expression =>
    let p := precedence (.PrefixCountOperation op expression)
    let (te, m1) := emitNode m expression
    (report_count_op op :: maybeWrap (precedence expression < p) te, m1)
  | .PostfixCountOperation expression op =>
    let p := precedence (.PostfixCountOperation expression op)
    let (te, m1) := emitNode m expression
    (maybeWrap (precedence expression < p) te ++ [report_count_op op], m1)
  | .TypeofOperation expression =>
    let p := precedence (.TypeofOperation expression)
    let (te, m1) := emitNode m expression
    (report_keyword "typeof" :: maybeWrap (precedence expression < p) te, m1)
  | .DeleteOperation expression =>
    let (te, m1) := emitNode m expression
    (report_keyword "delete" :: te, m1)
  | .VoidOperation expression =>
    let p := precedence (.VoidOperation expression)
    let (te, m1) := emitNode m expression
    (report_keyword "void" :: maybeWrap (precedence expression < p) te, m1)
  | .CallExpression expression arguments =>
    let p := precedence (.CallExpression expression arguments)
    let (te, m1) := emitNode m expression
    let (ta, m2) := emitCommaList m1 arguments
    (maybeWrap (precedence expression < p) te
      ++ report_literal "(" :: ta ++ [report_literal ")"], m2)
  | .NewExpression expression arguments =>
    let p := precedence (.NewExpression expression arguments)
    let (te, m1) := emitNode m expression
    let tew := maybeWrap (precedence expression < p) te
    (match arguments with
     | some args =>
       let (ta, m2) := emitCommaList m1 args
       (report_keyword "new" :: tew ++ report_literal "(" :: ta ++ [report_literal ")"], m2)
     | none => (report_keyword "new" :: tew, m1))
  | .DotProperty object key =>
    let p := precedence (.DotProperty object key)
    let (tobj, m1) := emitNode m object
    let (tk, m2) := emitNode m1 key
    (maybeWrap (precedence object < p) tobj ++ report_literal "." :: tk, m2)
  | .BracketProperty object key =>
    let p := precedence (.BracketProperty object key)
    let (tobj, m1) := emitNode m object
    let (tk, m2) := emitNode m1 key
    (maybeWrap (precedence object < p) tobj
      ++ report_literal "[" :: tk ++ [report_literal "]"], m2)
  | .FunctionExpression name parameters body =>
    let node := Node.FunctionExpression name parameters body
    let parens := containsNode m node
    let nameToks : List Token := match name with
      | some s => [⟨.IDENTIFIER, s⟩]
      | none => []
    let (tb, m1) := emitStatementList m body
    let toks := (if parens then [report_literal "("] else [])
      ++ report_keyword "function" :: nameToks
      ++ report_literal "(" :: emitParams parameters ++ [report_literal ")"]
      ++ report_literal "\x7b" :: tb ++ [report_literal "\x7d"]
      ++ (if parens then [report_literal ")"] else [])
    (toks, if parens then removeNode m1 node else m1)
  | .Block statements =>
    let (ts, m1) := emitStatementList m statements
    (report_literal "\x7b" :: ts ++ [report_literal "\x7d"], m1)
  | .VariableStatement declarations =>
    let (ts, m1) := emitCommaList m declarations
    (report_keyword "var" :: ts, m1)
  | .VariableDeclaration name value =>
    (match value with
     | some v =>
       let (tv, m1) := emitNode m v
       (⟨.IDENTIFIER, name⟩ :: report_literal "=" :: tv, m1)
     | none => ([⟨.IDENTIFIER, name⟩], m))
  | .EmptyStatement => ([report_literal ";"], m)
  | .ExpressionStatement expression =>
    let m1 := match mark_leftmost_for_parens expression with
      | some l => addNode m l
      | none => m
    emitNode m1 expression
  | .IfStatement condition then_statement else_statement =>
    let (tc, m1) := emitNode m condition
    let (tt, m2) := emitNode m1 then_statement
    (match else_statement with
     | some es =>
       let (te, m3) := emitNode m2 es
       (report_keyword "if" :: wrapParens tc ++ tt
         ++ (if needs_semicolon then_statement then [report_literal ";"] else [])
         ++ report_keyword "else" :: te, m3)
     | none => (report_keyword "if" :: wrapParens tc ++ tt, m2))
  | .DoWhileStatement body condition =>
    let (tb, m1) := emitNode m body
    let (tc, m2) := emitNode m1 condition
    (report_keyword "do"
      :: (tb ++ (if needs_semicolon body then [report_literal ";"] else []))
      ++ report_keyword "while" :: wrapParens tc, m2)
  | .WhileStatement condition body =>
    let (tc, m1) := emitNode m condition
    let (tb, m2) := emitNode m1 body
    (report_keyword "while" :: wrapParens tc ++ tb, m2)
  | .ForStatement init condition next body =>
    let (ti0, m1) := emitNode m init
    let ti := match init with
      | .CompareOperation _ op _ => if op == "in" then wrapParens ti0 else ti0
      | _ => ti0
    let (tc, m2) := emitNode m1 condition
    let (tn, m3) := emitNode m2 next
    let (tb, m4) := emitNode m3 body
    (report_keyword "for" :: report_literal "(" :: ti
      ++ report_literal ";" :: tc ++ report_literal ";" :: tn
      ++ report_literal ")" :: tb, m4)
  | .ForInStatement each enumerable body =>
    let (te, m1) := emitNode m each
    let (tn, m2) := emitNode m1 enumerable
    let (tb, m3) := emitNode m2 body
    (report_keyword "for" :: report_literal "(" :: te
      ++ report_keyword "in" :: tn ++ report_literal ")" :: tb, m3)
  | .ContinueStatement target =>
    (match target with
     | some t =>
       let (tt, m1) := emitNode m t
       (report_keyword "continue" :: tt, m1)
     | none => ([report_keyword "continue"], m))
  | .BreakStatement _ => ([report_keyword "break"], m)
  | .ReturnStatement expression =>
    let (te, m1) := emitNode m expression
    (report_keyword "return" :: te, m1)
  | .WithStatement expression statement =>
    let (te, m1) := emitNode m expression
    let (ts, m2) := emitNode m1 statement
    (report_keyword "with" :: wrapParens te ++ ts, m2)
  | .SwitchStatement expression cases =>
    let (te, m1) := emitNode m expression
    let (tc, m2) := emitCaseList m1 cases
    (report_keyword "switch" :: wrapParens te
      ++ report_literal "\x7b" :: tc ++ [report_literal "\x7d"], m2)
  | .CaseClause label statements =>
    let (ts, m1) := emitStatementList m statements
    (match label with
     | some l =>
       let (tl, m2) := emitNode m1 l
       (report_keyword "case" :: tl ++ report_literal ":" :: ts, m2)
     | none => (report_keyword "default" :: report_literal ":" :: ts, m1))
  | .LabelledStatement label statement =>
    let (ts, m1) := emitNode m statement
    (⟨.IDENTIFIER, label⟩ :: report_literal ":" :: ts, m1)
  | .Throw exception =>
    let (te, m1) := emitNode m exception
    (report_keyword "throw" :: te, m1)
  | .TryStatement try_block catch_var catch_block finally_block =>
    let (tt, m1) := emitNode m try_block
    let (tc, m2) := match catch_var with
      | some cv =>
        let (tv, ma) := emitNode m1 cv
        let (tb, mb) := match catch_block with
          | some cb => emitNode ma cb
          | none => ([], ma)
        (report_keyword "catch" :: wrapParens tv ++ tb, mb)
      | none => ([], m1)
    let (tf, m3) := match finally_block with
      | some fb =>
        let (tb, mc) := emitNode m2 fb
        (report_keyword "finally" :: tb, mc)
      | none => ([], m2)
    (report_keyword "try" :: tt ++ tc ++ tf, m3)
  | .FunctionDeclaration name parameters body =>
    let (tb, m1) := emitStatementList m body
    (report_keyword "function" :: ⟨.IDENTIFIER, name⟩
      :: report_literal "(" :: emitParams parameters ++ [report_literal ")"]
      ++ report_literal "\x7b" :: tb ++ [report_literal "\x7d"], m1)
  | .Program statements => emitStatementList m statements
  | .SourceElements statements => emitStatementList m statements
termination_by structural n

/-- CodeGenerator.visit_comma_list: elements separated by `,`. -/
def emitCommaList (m : List Node) (l : List Node) : List Token × List Node :=
  match l with
  | [] => ([], m)
  | [x] => emitNode m x
  | x :: y :: rest =>
    let (tx, m1) := emitNode m x
    let (tr, m2) := emitCommaList m1 (y :: rest)
    (tx ++ report_literal "," :: tr, m2)
termination_by structural l

/-- CodeGenerator.visit_statement_list: `maybe_semicolon` on every
statement but the last (inlined: the statement's tokens, then `;` when
`needs_semicolon` says so), the last visited plain. -/
def emitStatementList (m : List Node) (l : List Node) : List Token × List Node :=
  match l with
  | [] => ([], m)
  | [x] => emitNode m x
  | x :: y :: rest =>
    let (tx, m1) := emitNode m x
    let (tr, m2) := emitStatementList m1 (y :: rest)
    ((tx ++ (if needs_semicolon x then [report_literal ";"] else [])) ++ tr, m2)
termination_by structural l

/-- The case-clause loop of CodeGenerator.visit_SwitchStatement: a `;`
after every non-final clause whose last statement needs one. -/
def emitCaseList (m : List Node) (l : List Node) : List Token × List Node :=
  match l with
  | [] => ([], m)
  | [c] => emitNode m c
  | c :: y :: rest =>
    let (tc, m1) := emitNode m c
    let (tr, m2) := emitCaseList m1 (y :: rest)
    (tc ++ (if caseNeedsSemicolon c then [report_literal ";"] else []) ++ tr, m2)
termination_by structural l

end

/-- CodeGenerator.maybe_semicolon as a standalone function: visit, then
`;` when `needs_semicolon` says so.  `emitStatementList` and the
do-while visitor carry this inline. -/
def maybe_semicolon (m : List Node) (n : Node) : List Token × List Node :=
  let (ts, m1) := emitNode m n
  (ts ++ (if needs_semicolon n then [report_literal ";"] else []), m1)

/-- CodeGenerator.parenthesize as a standalone function. -/
def parenthesize (m : List Node) (n : Node) : List Token × List Node :=
  let (ts, m1) := emitNode m n
  (wrapParens ts, m1)

/-- CodeGenerator.maybe_parens as a standalone function: parenthesize the
child iff its precedence is strictly below the parent's. -/
def maybe_parens (m : List Node) (parentPrec : Nat) (n : Node) : List Token × List Node :=
  let (ts, m1) := emitNode m n
  (maybeWrap (precedence n < parentPrec) ts, m1)

/-- CodeGenerator.generate / the `generate_code` entry point: walk the
tree with an empty `marked_for_parens` set, then report EOF. -/
def generate_code (ast : Node) : List Token :=
  (emitNode [] ast).1 ++ [⟨.EOF, ""⟩]

/-- The semicolon rule as the claim states it: the six NEEDS_SEMICOLON
classes answer true; a loop or `with` body (or nested statement) is
inspected recursively with the same rule; an `IfStatement` takes the
answer of its else-branch when present and of its then-branch otherwise;
everything else answers false.  This is the claim's wording, kept for
comparison with `needs_semicolon` above. -/
def needs_semicolon_claim : Node → Bool
  | .DoWhileStatement _ _ => true
  | .ExpressionStatement _ => true
  | .ContinueStatement _ => true
  | .BreakStatement _ => true
  | .ReturnStatement _ => true
  | .VariableStatement _ => true
  | .WhileStatement _ body => needs_semicolon_claim body
  | .WithStatement _ statement => needs_semicolon_claim statement
  | .ForStatement _ _ _ body => needs_semicolon_claim body
  | .ForInStatement _ _ body => needs_semicolon_claim body
  | .IfStatement _ then_statement else_statement =>
    match else_statement with
    | some e => needs_semicolon_claim e
    | none => needs_semicolon_claim then_statement
  | _ => false

/-- LITERALS of `code_consumer.py`: the token kinds whose concatenation
with a following identifier-like token would change lexing. -/
def LITERALS : List TokType :=
  [.RETURN, .NEW, .DELETE, .TYPEOF, .NULL, .THIS, .FALSE, .TRUE, .THROW,
   .IN, .INSTANCEOF, .TRY, .FUNCTION, .IF, .ELSE, .SWITCH, .CASE, .DEFAULT,
   .WHILE, .DO, .FOR, .BREAK, .CONTINUE, .VAR, .WITH, .CATCH, .FINALLY,
   .VOID, .RESERVED, .IDENTIFIER]

/-- The SPACE token the sink writes, `Token(t.SPACE, u' ')`. -/
def spaceTok : Token := ⟨.SPACE, " "⟩

/-- MinifiedPrintConsumer.last_was: there is a last token and its type
matches. -/
def last_was (last : Option Token) (type : TokType) : Bool :=
  match last with
  | some t => t.type == type
  | none => false

/-- The `self.last_token and self.last_token.type in LITERALS` test of the
number/identifier/keyword report methods. -/
def lastInLiterals (last : Option Token) : Bool :=
  match last with
  | some t => LITERALS.contains t.type
  | none => false

/-- The report methods a code generator can call on a consumer, each
carrying its token.  `token` stands for `report_token` and for the
BaseConsumer methods MinifiedPrintConsumer leaves alone (`report_literal`,
`report_binary_op`, `report_postfix_op`, `report_regexp`), which all
forward to `report_token` unchanged. -/
inductive ReportEvent where
  | token (t : Token)
  | number (t : Token)
  | keyword (t : Token)
  | literal (t : Token)
  | identifier (t : Token)
  | binaryOp (t : Token)
  | unaryOp (t : Token)
  | prefixOp (t : Token)
  | postfixOp (t : Token)
  | regexp (t : Token)
  deriving Repr, DecidableEq

/-- The token an event reports. -/
def ReportEvent.tok : ReportEvent → Token
  | .token t | .number t | .keyword t | .literal t | .identifier t
  | .binaryOp t | .unaryOp t | .prefixOp t | .postfixOp t | .regexp t => t

/-- One step of MinifiedPrintConsumer (`code_consumer.py`): given the last
written token and a report event, the tokens written to the stream.  The
consumer's new `last_token` is the event's token (report_token records
every written token, the optional SPACE first and then the payload).

* `report_number`, `report_identifier`, `report_keyword`: a space first
  iff the last token's kind is in LITERALS;
* `report_prefix_op`: a space before `++` after `+` and `--` after `-`;
* `report_unary_op`: a space before `+` after `+` and `-` after `-`;
* everything else falls through to `report_token`, spaceless. -/
def consumer_report (last : Option Token) : ReportEvent → List Token
  | .number t => if lastInLiterals last then [spaceTok, t] else [t]
  | .identifier t => if lastInLiterals last then [spaceTok, t] else [t]
  | .keyword t => if lastInLiterals last then [spaceTok, t] else [t]
  | .prefixOp t =>
    if t.type == .INC && last_was last .ADD then [spaceTok, t]
    else if t.type == .DEC && last_was last .SUB then [spaceTok, t]
    else [t]
  | .unaryOp t =>
    if (t.type == .ADD && last_was last .ADD)
        || (t.type == .SUB && last_was last .SUB) then [spaceTok, t]
    else [t]
  | .token t => [t]
  | .literal t => [t]
  | .binaryOp t => [t]
  | .postfixOp t => [t]
  | .regexp t => [t]

/-- The claim's literal class, spelled as the claim spells it: all keyword
kinds, then IDENTIFIER and RESERVED. -/
def KEYWORD_KINDS : List TokType :=
  [.RETURN, .NEW, .DELETE, .TYPEOF, .NULL, .THIS, .FALSE, .TRUE, .THROW,
   .IN, .INSTANCEOF, .TRY, .FUNCTION, .IF, .ELSE, .SWITCH, .CASE, .DEFAULT,
   .WHILE, .DO, .FOR, .BREAK, .CONTINUE, .VAR, .WITH, .CATCH, .FINALLY,
   .VOID]

/-- The whitespace rule exactly as the claim words it: a space before a
number, identifier or keyword iff the previous token's kind is a keyword
kind or IDENTIFIER or RESERVED; before a prefix `++` iff the previous
token is `+` (symmetrically `--` after `-`); before a unary `+` iff the
previous token is `+` (symmetrically `-` after `-`); never otherwise. -/
def claim_space (last : Option Token) : ReportEvent → Bool
  | .number _ | .identifier _ | .keyword _ =>
    match last with
    | some t => (KEYWORD_KINDS ++ ([.IDENTIFIER, .RESERVED] : List TokType)).contains t.type
    | none => false
  | .prefixOp t =>
    (t.type == .INC && last_was last .ADD) || (t.type == .DEC && last_was last .SUB)
  | .unaryOp t =>
    (t.type == .ADD && last_was last .ADD) || (t.type == .SUB && last_was last .SUB)
  | _ => false

/-- Scope state as the rename passes use it: the declared names of
`Scope.declarations` (keys, in insertion order), the `_uses_eval` bit of
EvalTrackingScopeMixin and the `uses_with` bit of WithTrackingScopeMixin.
A scope together with its ancestors is a `List ScopeFrame` whose head is
the scope itself; the program scope is the last frame (its parent is
absent, the empty list). -/
structure ScopeFrame where
  decls : List String
  usesEvalFlag : Bool
  usesWith : Bool
  deriving Repr, DecidableEq

/-- Python values a scope lookup can produce: `None`, a `bool`, or a scope.
`has_declaration` returns a `bool` object, and the source then asks
whether that object `is not None` — the distinction this type keeps. -/
inductive PyValue where
  | pynone
  | pybool (b : Bool)
  | pyscope (s : List ScopeFrame)
  deriving Repr, DecidableEq

/-- Python's `x is not None` on a `PyValue`. -/
def PyValue.isNotNone : PyValue → Bool
  | .pynone => false
  | _ => true

/-- Scope.resolve_name of `scope_builder.py`: the nearest scope on the
parent chain whose declarations contain the name, or `None`. -/
def resolve_name : List ScopeFrame → String → PyValue
  | [], _ => .pynone
  | f :: p, name =>
    if f.decls.contains name then .pyscope (f :: p) else resolve_name p name

/-- Scope.has_declaration: `self.resolve_name(name) is not None`, a bool. -/
def has_declaration (s : List ScopeFrame) (name : String) : PyValue :=
  .pybool (resolve_name s name).isNotNone

/-- EvalTrackingScopeMixin.uses_eval of `rename.py`, kept exactly as the
source has it: `if self.has_declaration('eval') is not None: return False`
and otherwise the `_uses_eval` flag.  `has_declaration` returns a bool, so
the `is not None` test is applied to a bool object. -/
def uses_eval : List ScopeFrame → Bool
  | [] => false
  | f :: p =>
    if (has_declaration (f :: p) "eval").isNotNone then false
    else f.usesEvalFlag

/-- The behaviour the claim (and the method's own docstring) describes:
`eval` is reported used iff the scope was marked and no scope on the
resolution chain declares `eval`. -/
def uses_eval_claim : List ScopeFrame → Bool
  | [] => false
  | f :: p => f.usesEvalFlag && !(resolve_name (f :: p) "eval").isNotNone

/-- EvalTrackingScopeMixin.mark_uses_eval: set `_uses_eval` on the scope
and every ancestor. -/
def mark_uses_eval : List ScopeFrame → List ScopeFrame
  | [] => []
  | f :: p => { f with usesEvalFlag := true } :: mark_uses_eval p

/-- RenameScopeMixin.is_protected: `self.uses_eval() or self.uses_with or
self.parent is None`. -/
def is_protected : List ScopeFrame → Bool
  | [] => true
  | f :: p => uses_eval (f :: p) || f.usesWith || p.isEmpty

/-- IDENTIFIER_START_CHARS of `name_generator.py`:
`string.ascii_letters + "$_"`, lowercase before uppercase. -/
def IDENTIFIER_START_CHARS : List Char :=
  "abcdefghijklmnopqrstuvwxyzABCDEFGHIJKLMNOPQRSTUVWXYZ$_".toList

/-- IDENTIFIER_CHARS: IDENTIFIER_START_CHARS then the digits. -/
def IDENTIFIER_CHARS : List Char :=
  IDENTIFIER_START_CHARS ++ "0123456789".toList

/-- DISALLOWED_NAMES of `name_generator.py`. -/
def DISALLOWED_NAMES : List String :=
  ["as", "is", "do", "if", "in", "for", "int", "new", "try", "use", "var"]

/-- build_names_list of `name_generator.py`: all one-character names over
IDENTIFIER_START_CHARS (no filter applies to them), then the two- and
three-character products with IDENTIFIER_CHARS in later positions, the
loops' `continue` on a disallowed word becoming a filter. -/
def build_names_list (disallowed : List String) : List String :=
  (IDENTIFIER_START_CHARS.map fun first => String.mk [first])
  ++ (IDENTIFIER_START_CHARS.flatMap fun first =>
      (IDENTIFIER_CHARS.map fun second => String.mk [first, second]).filter
        fun ident => !disallowed.contains ident)
  ++ (IDENTIFIER_START_CHARS.flatMap fun first =>
      IDENTIFIER_CHARS.flatMap fun second =>
        (IDENTIFIER_CHARS.map fun third => String.mk [first, second, third]).filter
          fun ident => !disallowed.contains ident)

/-- SHORTNAMES, the module-level precomputed list. -/
def SHORTNAMES : List String := build_names_list DISALLOWED_NAMES

/-- NameGenerator of `name_generator.py`: a name list and a cursor. -/
structure NameGenerator where
  name_list : List String := SHORTNAMES
  index : Nat := 0
  deriving Repr, DecidableEq

/-- NameGenerator.next: `self.name_list[self.index]`, then advance.
`none` models the IndexError raised once the index runs off the list. -/
def NameGenerator.next (g : NameGenerator) : Option (String × NameGenerator) :=
  match g.name_list.get? g.index with
  | some name => some (name, ⟨g.name_list, g.index + 1⟩)
  | none => none

/-- Counter.most_common() of Python 2.7: the pairs sorted by count in
descending order; `sorted` is stable, so ties keep the counter's
iteration order, modelled here as insertion order. -/
def most_common (counts : List (String × Nat)) : List (String × Nat) :=
  counts.insertionSort fun p q => q.2 ≤ p.2

/-- The `new_name = name_generator.next()` / `while new_name in disallowed`
loop of RenameScopeMixin.generate_names, iterating over the part of the
name list the generator has not consumed yet: each step reads the name at
the cursor (`none` models the IndexError when the list is exhausted
first), advances the cursor, and keeps drawing while the name is in
`disallowed`. -/
def draw_from (disallowed : List String) : List String → Nat → Option (String × Nat)
  | [], _ => none
  | name :: remaining, idx =>
    if disallowed.contains name then draw_from disallowed remaining (idx + 1)
    else some (name, idx + 1)

/-- The draw loop at a generator whose cursor stands at `idx`: iterate
over `nameList.drop idx`, the names the generator has left. -/
def draw_new_name (disallowed : List String) (nameList : List String) (idx : Nat) :
    Option (String × Nat) :=
  draw_from disallowed (nameList.drop idx) idx

/-- The `for name, count in self.reference_counts.most_common()` loop of
generate_names: draw a fresh name for each pending counter entry, record
it in `original_to_new` (`o2n`) and `new_to_original` (`n2o`), insertion
order preserved.  The single shared generator's cursor is `idx`. -/
def generate_names_loop (nameList : List String) (disallowed : List String) :
    List (String × Nat) → Nat → List (String × String) → List (String × String) →
    Option (List (String × String) × List (String × String))
  | [], _, o2n, n2o => some (o2n, n2o)
  | (name, _) :: rest, idx, o2n, n2o =>
    match draw_new_name disallowed nameList idx with
    | some (new_name, idx') =>
      generate_names_loop nameList disallowed rest idx'
        (o2n ++ [(name, new_name)]) (n2o ++ [(new_name, name)])
    | none => none

/-- RenameScopeMixin.generate_names of `rename.py`.  A protected scope
bails out, leaving both maps as `__init__` made them: empty.  Otherwise
the counter entries are processed in `most_common` order, drawing from a
fresh `NameGenerator()` over SHORTNAMES.  `reference_counts` is the
scope's counter as an insertion-ordered association list, and
`disallowed` is the set `{get_name(r) for r in self.references}` the
method computes first — `get_name` reads ancestor scopes' previously
generated maps, so the set arrives here as an input. -/
def generate_names (scope : List ScopeFrame) (reference_counts : List (String × Nat))
    (disallowed : List String) :
    Option (List (String × String) × List (String × String)) :=
  if is_protected scope then some ([], [])
  else generate_names_loop SHORTNAMES disallowed (most_common reference_counts) 0 [] []

mutual

/-- Modelled from the spec: the external JavaScript parser (`bigrig`,
consumed as a library and absent from `src/`), restricted to the fragment
the reparse-identity claim is refuted on — identifiers, the relational
operator `<` (precedence 10, left-associative per §4.1's table, "the
right-hand side of a left-associative binary operator"), and grouping
parentheses, which produce no node of their own (the code generator
re-derives every parenthesis from precedences, §4.1).  Primary:
an identifier, or a parenthesized expression. -/
def parsePrimary : Nat → List Token → Option (Node × List Token)
  | 0, _ => none
  | fuel + 1, ts =>
    match ts with
    | ⟨.IDENTIFIER, v⟩ :: rest => some (.Name v, rest)
    | ⟨.LPAREN, _⟩ :: rest =>
      match parseRelationalExpr fuel rest with
      | some (e, ⟨.RPAREN, _⟩ :: rest') => some (e, rest')
      | _ => none
    | _ => none

/-- Modelled from the spec: the left-associative tail of a relational
expression — each further `< primary` wraps the accumulated left operand
in a new `CompareOperation`. -/
def parseRelationalTail : Nat → Node → List Token → Option (Node × List Token)
  | 0, _, _ => none
  | fuel + 1, left, ts =>
    match ts with
    | ⟨.LT, v⟩ :: rest =>
      match parsePrimary fuel rest with
      | some (r, rest') => parseRelationalTail fuel (.CompareOperation left v r) rest'
      | none => none
    | _ => some (left, ts)

/-- Modelled from the spec: a relational expression, a primary followed by
its left-associative tail. -/
def parseRelationalExpr : Nat → List Token → Option (Node × List Token)
  | 0, _ => none
  | fuel + 1, ts =>
    match parsePrimary fuel ts with
    | some (l, rest) => parseRelationalTail fuel l rest
    | none => none

end

/-- Modelled from the spec: `parse` on the relational fragment — the whole
token list must be consumed.  The fuel bound is generous; the grammar
consumes at least one token per two recursion steps. -/
def parse_relational (ts : List Token) : Option Node :=
  match parseRelationalExpr (2 * ts.length + 2) ts with
  | some (e, []) => some e
  | _ => none

/-- The leftmost-chain terminus as the claim words it: follow object /
expression / left / target downward, stop when `precedence(parent) >
precedence(child)`, and the node where the walk stops is the terminus. -/
def leftmost_terminus_claim : Node → Node
  | .DotProperty object key =>
    if precedence (.DotProperty object key) > precedence object
    then .DotProperty object key else leftmost_terminus_claim object
  | .BracketProperty object key =>
    if precedence (.BracketProperty object key) > precedence object
    then .BracketProperty object key else leftmost_terminus_claim object
  | .PostfixCountOperation expression op =>
    if precedence (.PostfixCountOperation expression op) > precedence expression
    then .PostfixCountOperation expression op else leftmost_terminus_claim expression
  | .CallExpression expression args =>
    if precedence (.CallExpression expression args) > precedence expression
    then .CallExpression expression args else leftmost_terminus_claim expression
  | .BinaryOperation left op right =>
    if precedence (.BinaryOperation left op right) > precedence left
    then .BinaryOperation left op right else leftmost_terminus_claim left
  | .CompareOperation left op right =>
    if precedence (.CompareOperation left op right) > precedence left
    then .CompareOperation left op right else leftmost_terminus_claim left
  | .Assignment target op value =>
    if precedence (.Assignment target op value) > precedence target
    then .Assignment target op value else leftmost_terminus_claim target
  | n => n

/-- Is a node one of the two statement-start-ambiguous classes? -/
def isFunctionOrObject : Node → Bool
  | .FunctionExpression _ _ _ => true
  | .ObjectLiteral _ => true
  | _ => false

/-- Rank of a character in the generator's combined alphabet
IDENTIFIER_CHARS (lowercase, uppercase, `$`, `_`, digits). -/
def charRank (c : Char) : Nat := IDENTIFIER_CHARS.indexOf c

/-- Shortlex order on generated names: shorter first; names of one length
compare lexicographically by the alphabet ranks of their characters. -/
def wordLt (a b : String) : Prop :=
  a.data.length < b.data.length ∨
    (a.data.length = b.data.length ∧
      List.Lex (· < ·) (a.data.map charRank) (b.data.map charRank))

/-- The first-character alphabet in the order the claim states it:
`A–Z a–z $ _`, uppercase before lowercase. -/
def CLAIMED_START_CHARS : List Char :=
  "ABCDEFGHIJKLMNOPQRSTUVWXYZabcdefghijklmnopqrstuvwxyz$_".toList

/-- The failing input of C1: a scope whose `_uses_eval` flag was set (an
undeclared `eval` was referenced in it) and which declares nothing, least
of all `eval`. -/
def c1_scope : List ScopeFrame := [⟨[], true, false⟩]

/-- The scope frame of C5's counterexample: it declares `unused` and `x`
but only `x` is ever referenced (`var unused; var x; x; x;`). -/
def c5_frame : ScopeFrame := ⟨["unused", "x"], false, false⟩

/-- C5's counterexample scope: `c5_frame` inside a program scope, so it is
not protected. -/
def c5_scope : List ScopeFrame := [c5_frame, ⟨[], false, false⟩]

/-- A plain unprotected two-frame scope for concrete witness runs. -/
def plain_scope : List ScopeFrame := [⟨["x"], false, false⟩, ⟨[], false, false⟩]

/-- C2's first failing input: an if-statement whose then-branch is an
empty block and which has no else-branch. -/
def c2_if_block : Node := .IfStatement (.Name "a") (.Block []) none

/-- C2's second failing input: a while-loop whose body is another
while-loop ending in an expression statement. -/
def c2_nested_while : Node :=
  .WhileStatement (.Name "a")
    (.WhileStatement (.Name "b") (.ExpressionStatement (.Name "c")))

/-- A `CompareOperation` whose right operand is a nested
`CompareOperation` of the same precedence: the tree of `a<(b<c)`. -/
def cmp_right_nested : Node :=
  .CompareOperation (.Name "a") "<" (.CompareOperation (.Name "b") "<" (.Name "c"))

/-- The token stream of the source text `a<(b<c)`. -/
def c4_source_tokens : List Token :=
  [⟨.IDENTIFIER, "a"⟩, ⟨.LT, "<"⟩, ⟨.LPAREN, "("⟩, ⟨.IDENTIFIER, "b"⟩,
   ⟨.LT, "<"⟩, ⟨.IDENTIFIER, "c"⟩, ⟨.RPAREN, ")"⟩]

/-- The failing input of C8: an expression statement whose entire
expression is an object literal — the source text `({a:1});`. -/
def c8_obj : Node :=
  .ObjectLiteral [.ObjectProperty (.PropertyName "a") (.NumberLiteral "1")]

/-- C1: the claim says `uses_eval()` returns true iff the scope was marked
and no scope on the resolution chain declares `eval`.  In the source,
`has_declaration` returns a bool and `uses_eval` tests that bool object
with `is not None`, which every bool passes — so `uses_eval()` returns
false on every scope, and in particular on a marked scope with no `eval`
declaration, contradicting the claim, the method's own docstring and the
spec; such scopes are wrongly left unprotected from renaming. -/
theorem C1_uses_eval_code_bug :
    uses_eval c1_scope = false ∧ uses_eval_claim c1_scope = true ∧
    ∀ s : List ScopeFrame, uses_eval s = false :=
  ⟨rfl, rfl, fun s => by cases s <;> rfl⟩

/-- C2: the claim says an `IfStatement` answers with the result for its
inspected branch, and that loop bodies are inspected recursively.  The
source returns `True` for every `IfStatement` (the branch reassignments
before `return True` are dead code) and unwraps a loop body exactly once.
On `if(a){}` the code answers true and emits a semicolon that reparses as
an extra `EmptyStatement`; on `while(a)while(b)c` it answers false though
the inner body needs separation. -/
theorem C2_needs_semicolon_code_bug :
    needs_semicolon c2_if_block = true ∧
    needs_semicolon_claim c2_if_block = false ∧
    needs_semicolon c2_nested_while = false ∧
    needs_semicolon_claim c2_nested_while = true ∧
    (emitNode [] (.Program [c2_if_block, .ExpressionStatement (.Name "b")])).1 =
      [⟨.IF, "if"⟩, ⟨.LPAREN, "("⟩, ⟨.IDENTIFIER, "a"⟩, ⟨.RPAREN, ")"⟩,
       ⟨.LBRACE, "\x7b"⟩, ⟨.RBRACE, "\x7d"⟩, ⟨.SEMICOLON, ";"⟩,
       ⟨.IDENTIFIER, "b"⟩] :=
  ⟨rfl, rfl, rfl, rfl, rfl⟩

/-- C3: the claim says both `BinaryOperation` and `CompareOperation`
parenthesize the right operand iff `precedence(right) ≤ precedence(node)`.
`visit_BinaryOperation` does (third conjunct, `a-(b-c)` keeps its parens);
`visit_CompareOperation` instead runs the right operand through
`maybe_parens` (strict `<`), so for `a<(b<c)` — where the precedences are
equal and the claim demands parentheses — it emits `a<b<c` with none. -/
theorem C3_compare_right_parens_code_bug :
    precedence (.CompareOperation (.Name "b") "<" (.Name "c")) ≤
      precedence cmp_right_nested ∧
    (emitNode [] cmp_right_nested).1 =
      [⟨.IDENTIFIER, "a"⟩, ⟨.LT, "<"⟩, ⟨.IDENTIFIER, "b"⟩, ⟨.LT, "<"⟩,
       ⟨.IDENTIFIER, "c"⟩] ∧
    (emitNode [] (.BinaryOperation (.Name "a") "-"
        (.BinaryOperation (.Name "b") "-" (.Name "c")))).1 =
      [⟨.IDENTIFIER, "a"⟩, ⟨.SUB, "-"⟩, ⟨.LPAREN, "("⟩, ⟨.IDENTIFIER, "b"⟩,
       ⟨.SUB, "-"⟩, ⟨.IDENTIFIER, "c"⟩, ⟨.RPAREN, ")"⟩] :=
  ⟨by decide, rfl, rfl⟩

/-- C4: reparse identity fails.  `a<(b<c)` parses to a right-nested
`CompareOperation`; the generator emits it as `a<b<c` (see C3), and
reparsing that yields the left-nested tree — a different AST.  So
`parse(emit(parse(P))) ≠ parse(P)` at `P = a<(b<c)`, renaming off. -/
theorem C4_reparse_identity_code_bug :
    parse_relational c4_source_tokens = some cmp_right_nested ∧
    parse_relational (emitNode [] cmp_right_nested).1 =
      some (.CompareOperation (.CompareOperation (.Name "a") "<" (.Name "b"))
        "<" (.Name "c")) ∧
    Node.CompareOperation (.CompareOperation (.Name "a") "<" (.Name "b"))
        "<" (.Name "c") ≠ cmp_right_nested :=
  ⟨rfl, rfl, by simp [cmp_right_nested]⟩

/-- Merging the source's cascaded space conditions into the claim's
disjunction. -/
theorem if_or_merge (A B : Prop) [Decidable A] [Decidable B] (X Y : List Token) :
    (if A then X else if B then X else Y) = if A ∨ B then X else Y := by
  by_cases hA : A <;> by_cases hB : B <;> simp [hA, hB]

/-- The LITERALS set of the source is exactly the claim's literal class:
all keyword kinds, then IDENTIFIER and RESERVED. -/
theorem literal_class_iff (tt : TokType) :
    tt ∈ LITERALS ↔ tt ∈ KEYWORD_KINDS ∨ tt = .IDENTIFIER ∨ tt = .RESERVED := by
  cases tt <;> decide

/-- C7: for every consumer state (last written token) and report event,
the consumer writes a single SPACE before the token iff the claim's rule
says so — before a number, identifier or keyword iff the last token's
kind is in the literal class; before a prefix `++` iff the last token is
`+` (and `--` after `-`); before a unary `+` iff the last token is `+`
(and `-` after `-`); never otherwise. -/
theorem C7_consumer_space_rule (last : Option Token) (e : ReportEvent) :
    consumer_report last e =
      if claim_space last e then [spaceTok, e.tok] else [e.tok] := by
  cases e <;> cases last <;>
    simp [consumer_report, claim_space, lastInLiterals, last_was,
      ReportEvent.tok, literal_class_iff, if_or_merge]

/-- C8: the claim says that iff the leftmost-chain terminus is a
`FunctionExpression` or `ObjectLiteral` it is emitted wrapped in
parentheses.  When the expression itself is the terminus (a chain of
length zero) the source marks nothing — `mark_leftmost_for_parens` only
ever marks a *child* — and `({a:1});` is emitted as `{a:1}`, which
reparses as a block, not an expression statement.  The third conjunct
shows the non-root case working as claimed (`({a:1}).b`). -/
theorem C8_root_terminus_code_bug :
    leftmost_terminus_claim c8_obj = c8_obj ∧
    isFunctionOrObject c8_obj = true ∧
    mark_leftmost_for_parens c8_obj = none ∧
    (emitNode [] (.ExpressionStatement c8_obj)).1 =
      [⟨.LBRACE, "\x7b"⟩, ⟨.IDENTIFIER, "a"⟩, ⟨.COLON, ":"⟩,
       ⟨.DECIMAL, "1"⟩, ⟨.RBRACE, "\x7d"⟩] ∧
    (emitNode [] (.ExpressionStatement (.DotProperty c8_obj (.Name "b")))).1 =
      [⟨.LPAREN, "("⟩, ⟨.LBRACE, "\x7b"⟩, ⟨.IDENTIFIER, "a"⟩, ⟨.COLON, ":"⟩,
       ⟨.DECIMAL, "1"⟩, ⟨.RBRACE, "\x7d"⟩, ⟨.RPAREN, ")"⟩, ⟨.DOT, "."⟩,
       ⟨.IDENTIFIER, "b"⟩] :=
  ⟨rfl, rfl, rfl, rfl, rfl⟩

/-- A successful draw yields exactly the head of the not-yet-consumed
survivors (the names from the cursor on, minus the disallowed ones), and
a failed draw means no survivor remains. -/
theorem draw_from_spec (dis nameList : List String) :
    ∀ (rem : List String) (idx : Nat), rem = nameList.drop idx →
      (draw_from dis rem idx = none →
        rem.filter (fun s => !dis.contains s) = []) ∧
      (∀ v idx', draw_from dis rem idx = some (v, idx') →
        rem.filter (fun s => !dis.contains s)
          = v :: (nameList.drop idx').filter (fun s => !dis.contains s)) := by
  intro rem
  induction rem with
  | nil =>
    intro idx _
    exact ⟨fun _ => rfl, fun v idx' h => by simp [draw_from] at h⟩
  | cons name remaining ih =>
    intro idx hrem
    have hrem' : remaining = nameList.drop (idx + 1) := by
      have h1 := List.tail_drop nameList idx
      rw [← hrem] at h1
      simpa using h1
    cases hdis : dis.contains name with
    | true =>
      have hstep : draw_from dis (name :: remaining) idx
          = draw_from dis remaining (idx + 1) := by
        simp only [draw_from, hdis]
        rfl
      have hmem : name ∈ dis := by simpa using hdis
      have hfil : (name :: remaining).filter (fun s => !dis.contains s)
          = remaining.filter (fun s => !dis.contains s) := by
        simp [List.filter_cons, hmem]
      refine ⟨fun h => ?_, fun v idx' h => ?_⟩
      · rw [hfil]
        exact (ih (idx + 1) hrem').1 (hstep ▸ h)
      · rw [hfil]
        exact (ih (idx + 1) hrem').2 v idx' (hstep ▸ h)
    | false =>
      have hstep : draw_from dis (name :: remaining) idx = some (name, idx + 1) := by
        simp only [draw_from, hdis]
        rfl
      refine ⟨fun h => ?_, fun v idx' h => ?_⟩
      · rw [hstep] at h; cases h
      · rw [hstep] at h
        obtain ⟨rfl, rfl⟩ : name = v ∧ idx + 1 = idx' := by
          injection h with h'; injection h' with h1 h2; exact ⟨h1, h2⟩
        rw [← hrem']
        have hmem : name ∉ dis := by simpa using hdis
        simp [List.filter_cons, hmem]

/-- Closed form of the generate_names loop: it succeeds iff enough
survivors remain past the cursor, pairing the pending names in order with
the first survivors, and fails (IndexError) otherwise. -/
theorem generate_names_loop_spec (nameList dis : List String) :
    ∀ (pending : List (String × Nat)) (idx : Nat) (o2n n2o : List (String × String)),
      generate_names_loop nameList dis pending idx o2n n2o =
        if pending.length ≤ ((nameList.drop idx).filter (fun s => !dis.contains s)).length then
          some (o2n ++ (pending.map Prod.fst).zip
                  (((nameList.drop idx).filter (fun s => !dis.contains s)).take pending.length),
                n2o ++ (((nameList.drop idx).filter (fun s => !dis.contains s)).take
                  pending.length).zip (pending.map Prod.fst))
        else none := by
  intro pending
  induction pending with
  | nil =>
    intro idx o2n n2o
    simp [generate_names_loop]
  | cons head rest ih =>
    intro idx o2n n2o
    obtain ⟨name, c⟩ := head
    have hspec := draw_from_spec dis nameList (nameList.drop idx) idx rfl
    rw [show generate_names_loop nameList dis ((name, c) :: rest) idx o2n n2o
        = (match draw_new_name dis nameList idx with
           | some (new_name, idx') =>
             generate_names_loop nameList dis rest idx'
               (o2n ++ [(name, new_name)]) (n2o ++ [(new_name, name)])
           | none => none) from rfl]
    cases hdraw : draw_new_name dis nameList idx with
    | none =>
      have hfil := hspec.1 hdraw
      simp only [hdraw]
      rw [hfil]
      simp
    | some vi =>
      obtain ⟨v, idx'⟩ := vi
      have hfil := hspec.2 v idx' hdraw
      simp only [hdraw]
      rw [ih idx' (o2n ++ [(name, v)]) (n2o ++ [(v, name)]), hfil]
      by_cases hle : rest.length ≤ ((nameList.drop idx').filter (fun s => !dis.contains s)).length
      · rw [if_pos hle, if_pos (by simpa using Nat.succ_le_succ hle)]
        simp [List.take_succ_cons, List.zip_cons_cons, List.append_assoc,
          List.singleton_append]
      · rw [if_neg hle, if_neg (by simpa using fun h => hle (Nat.le_of_succ_le_succ h))]

/-- Closed form of generate_names on an unprotected scope. -/
theorem generate_names_spec (scope : List ScopeFrame) (counts : List (String × Nat))
    (dis : List String) (h : is_protected scope = false) :
    generate_names scope counts dis =
      if counts.length ≤ (SHORTNAMES.filter (fun s => !dis.contains s)).length then
        some (((most_common counts).map Prod.fst).zip
                ((SHORTNAMES.filter (fun s => !dis.contains s)).take counts.length),
              ((SHORTNAMES.filter (fun s => !dis.contains s)).take counts.length).zip
                ((most_common counts).map Prod.fst))
      else none := by
  have hlen : (most_common counts).length = counts.length :=
    (List.perm_insertionSort _ counts).length_eq
  rw [show generate_names scope counts dis
      = if is_protected scope then some ([], [])
        else generate_names_loop SHORTNAMES dis (most_common counts) 0 [] [] from rfl,
    h, if_neg (by simp), generate_names_loop_spec, List.drop_zero, hlen]
  rfl

set_option maxRecDepth 40000 in
/-- The start alphabet is strictly increasing in rank. -/
theorem startChars_rank_pairwise :
    IDENTIFIER_START_CHARS.Pairwise fun a b => charRank a < charRank b := by
  decide

set_option maxRecDepth 40000 in
/-- The full alphabet is strictly increasing in rank. -/
theorem chars_rank_pairwise :
    IDENTIFIER_CHARS.Pairwise fun a b => charRank a < charRank b := by
  decide

/-- Lexicographic order by a strict relation never relates a list to
itself. -/
theorem lex_lt_irrefl (l : List Nat) : ¬ List.Lex (· < ·) l l := by
  induction l with
  | nil => intro h; cases h
  | cons a l ih =>
    intro h
    cases h with
    | cons h => exact ih h
    | rel h => exact Nat.lt_irrefl _ h

/-- `wordLt` is irreflexive. -/
theorem wordLt_irrefl (w : String) : ¬ wordLt w w := by
  intro h
  rcases h with h | ⟨_, h⟩
  · exact Nat.lt_irrefl _ h
  · exact lex_lt_irrefl _ h

/-- The one-character block is shortlex-sorted. -/
theorem block1_pairwise :
    (IDENTIFIER_START_CHARS.map fun first => String.mk [first]).Pairwise wordLt := by
  rw [List.pairwise_map]
  refine startChars_rank_pairwise.imp fun h => Or.inr ⟨rfl, ?_⟩
  exact List.Lex.rel h

/-- The two-character block is shortlex-sorted, for any blocklist. -/
theorem block2_pairwise (disallowed : List String) :
    (IDENTIFIER_START_CHARS.flatMap fun first =>
      (IDENTIFIER_CHARS.map fun second => String.mk [first, second]).filter
        fun ident => !disallowed.contains ident).Pairwise wordLt := by
  rw [List.pairwise_flatMap]
  constructor
  · intro a _
    apply List.Pairwise.filter
    rw [List.pairwise_map]
    refine chars_rank_pairwise.imp fun h => Or.inr ⟨rfl, ?_⟩
    exact List.Lex.cons (List.Lex.rel h)
  · refine startChars_rank_pairwise.imp ?_
    intro f1 f2 hf x hx y hy
    obtain ⟨s1, -, rfl⟩ :=
      List.mem_map.mp ((List.mem_filter.mp hx).1)
    obtain ⟨s2, -, rfl⟩ :=
      List.mem_map.mp ((List.mem_filter.mp hy).1)
    exact Or.inr ⟨rfl, List.Lex.rel hf⟩

/-- The three-character block is shortlex-sorted, for any blocklist. -/
theorem block3_pairwise (disallowed : List String) :
    (IDENTIFIER_START_CHARS.flatMap fun first =>
      IDENTIFIER_CHARS.flatMap fun second =>
        (IDENTIFIER_CHARS.map fun third => String.mk [first, second, third]).filter
          fun ident => !disallowed.contains ident).Pairwise wordLt := by
  rw [List.pairwise_flatMap]
  constructor
  · intro f1 _
    rw [List.pairwise_flatMap]
    constructor
    · intro s1 _
      apply List.Pairwise.filter
      rw [List.pairwise_map]
      refine chars_rank_pairwise.imp fun h => Or.inr ⟨rfl, ?_⟩
      exact List.Lex.cons (List.Lex.cons (List.Lex.rel h))
    · refine chars_rank_pairwise.imp ?_
      intro s1 s2 hs x hx y hy
      obtain ⟨t1, -, rfl⟩ := List.mem_map.mp ((List.mem_filter.mp hx).1)
      obtain ⟨t2, -, rfl⟩ := List.mem_map.mp ((List.mem_filter.mp hy).1)
      exact Or.inr ⟨rfl, List.Lex.cons (List.Lex.rel hs)⟩
  · refine startChars_rank_pairwise.imp ?_
    intro f1 f2 hf x hx y hy
    obtain ⟨s1, -, hx2⟩ := List.mem_flatMap.mp hx
    obtain ⟨t1, -, rfl⟩ := List.mem_map.mp ((List.mem_filter.mp hx2).1)
    obtain ⟨s2, -, hy2⟩ := List.mem_flatMap.mp hy
    obtain ⟨t2, -, rfl⟩ := List.mem_map.mp ((List.mem_filter.mp hy2).1)
    exact Or.inr ⟨rfl, List.Lex.rel hf⟩

/-- Every name produced by `build_names_list` has the evident shape:
one start character, or two or three alphabet characters with a
non-blocked spelling. -/
theorem build_names_list_mem (disallowed : List String) (w : String) :
    w ∈ build_names_list disallowed ↔
      (∃ a ∈ IDENTIFIER_START_CHARS, w = String.mk [a]) ∨
      (∃ a ∈ IDENTIFIER_START_CHARS, ∃ b ∈ IDENTIFIER_CHARS,
        w = String.mk [a, b] ∧ disallowed.contains w = false) ∨
      (∃ a ∈ IDENTIFIER_START_CHARS, ∃ b ∈ IDENTIFIER_CHARS, ∃ c ∈ IDENTIFIER_CHARS,
        w = String.mk [a, b, c] ∧ disallowed.contains w = false) := by
  simp only [build_names_list, List.mem_append, List.mem_flatMap, List.mem_filter,
    List.mem_map, Bool.not_eq_true']
  constructor
  · rintro ((⟨a, ha, rfl⟩ | ⟨a, ha, ⟨b, hb, rfl⟩, hw⟩) | ⟨a, ha, b, hb, ⟨c, hc, rfl⟩, hw⟩)
    · exact Or.inl ⟨a, ha, rfl⟩
    · exact Or.inr (Or.inl ⟨a, ha, b, hb, rfl, hw⟩)
    · exact Or.inr (Or.inr ⟨a, ha, b, hb, c, hc, rfl, hw⟩)
  · rintro (⟨a, ha, rfl⟩ | ⟨a, ha, b, hb, rfl, hw⟩ | ⟨a, ha, b, hb, c, hc, rfl, hw⟩)
    · exact Or.inl (Or.inl ⟨a, ha, rfl⟩)
    · exact Or.inl (Or.inr ⟨a, ha, ⟨b, hb, rfl⟩, hw⟩)
    · exact Or.inr ⟨a, ha, b, hb, ⟨c, hc, rfl⟩, hw⟩

/-- The whole generated list is shortlex-sorted: the three blocks are
sorted and hold words of lengths 1, 2 and 3 respectively. -/
theorem build_names_list_pairwise (disallowed : List String) :
    (build_names_list disallowed).Pairwise wordLt := by
  rw [build_names_list, List.append_assoc]
  rw [List.pairwise_append]
  refine ⟨block1_pairwise, ?_, ?_⟩
  · rw [List.pairwise_append]
    refine ⟨block2_pairwise disallowed, block3_pairwise disallowed, ?_⟩
    intro x hx y hy
    obtain ⟨f, -, hx2⟩ := List.mem_flatMap.mp hx
    obtain ⟨s, -, rfl⟩ := List.mem_map.mp ((List.mem_filter.mp hx2).1)
    obtain ⟨g, -, hy2⟩ := List.mem_flatMap.mp hy
    obtain ⟨t, -, hy3⟩ := List.mem_flatMap.mp hy2
    obtain ⟨u, -, rfl⟩ := List.mem_map.mp ((List.mem_filter.mp hy3).1)
    exact Or.inl (by simp)
  · intro x hx y hy
    obtain ⟨a, -, rfl⟩ := List.mem_map.mp hx
    rcases List.mem_append.mp hy with hy | hy
    · obtain ⟨f, -, hy2⟩ := List.mem_flatMap.mp hy
      obtain ⟨s, -, rfl⟩ := List.mem_map.mp ((List.mem_filter.mp hy2).1)
      exact Or.inl (by simp)
    · obtain ⟨f, -, hy2⟩ := List.mem_flatMap.mp hy
      obtain ⟨t, -, hy3⟩ := List.mem_flatMap.mp hy2
      obtain ⟨u, -, rfl⟩ := List.mem_map.mp ((List.mem_filter.mp hy3).1)
      exact Or.inl (by simp)

/-- SHORTNAMES is shortlex-sorted. -/
theorem shortnames_pairwise : SHORTNAMES.Pairwise wordLt :=
  build_names_list_pairwise DISALLOWED_NAMES

/-- SHORTNAMES has no duplicate name. -/
theorem shortnames_nodup : SHORTNAMES.Nodup := by
  refine shortnames_pairwise.imp ?_
  intro a b h
  intro hab
  rw [hab] at h
  exact wordLt_irrefl b h

/-- A successful association-list lookup exhibits a member pair. -/
theorem lookup_mem_pairs :
    ∀ (l : List (String × String)) (x y : String),
      l.lookup x = some y → (x, y) ∈ l := by
  intro l
  induction l with
  | nil => intro x y h; simp [List.lookup] at h
  | cons p rest ih =>
    intro x y h
    obtain ⟨k, v⟩ := p
    cases hk : x == k with
    | true =>
      have hxk : x = k := eq_of_beq hk
      simp only [List.lookup, hk] at h
      injection h with hv
      exact hxk ▸ hv ▸ List.mem_cons_self _ _
    | false =>
      simp only [List.lookup, hk] at h
      exact List.mem_cons_of_mem _ (ih x y h)

/-- Looking a key up in the zip of two duplicate-free lists of one length
and looking the answer up in the swapped zip returns the key. -/
theorem zip_lookup_swap :
    ∀ (ks vs : List String), ks.Nodup → vs.Nodup → ks.length = vs.length →
      ∀ x y, (ks.zip vs).lookup x = some y → (vs.zip ks).lookup y = some x := by
  intro ks
  induction ks with
  | nil => intro vs _ _ _ x y h; simp [List.lookup] at h
  | cons k ks' ih =>
    intro vs hks hvs hlen x y h
    cases vs with
    | nil => simp [List.lookup] at h
    | cons v vs' =>
      rw [List.zip_cons_cons] at h
      rw [List.zip_cons_cons]
      cases hk : x == k with
      | true =>
        have hxk : x = k := eq_of_beq hk
        simp only [List.lookup, hk] at h
        injection h with hv
        subst hxk hv
        simp [List.lookup]
      | false =>
        simp only [List.lookup, hk] at h
        have hmem := lookup_mem_pairs _ x y h
        have hyv : y ∈ vs' := (List.of_mem_zip hmem).2
        have hvnot : v ∉ vs' := (List.nodup_cons.mp hvs).1
        have hne : (y == v) = false :=
          beq_eq_false_iff_ne.mpr fun hyv' => hvnot (hyv' ▸ hyv)
        simp only [List.lookup, hne]
        exact ih vs' (List.nodup_cons.mp hks).2 (List.nodup_cons.mp hvs).2
          (Nat.succ.inj hlen) x y h

/-- C5 counterexample: an unprotected scope declaring `unused` and `x`
where only `x` was ever referenced.  `generate_names` succeeds but
assigns nothing to `unused` — the maps' domain is the counter's keys, not
"every locally declared name" as the claim states. -/
theorem C5_unreferenced_local_counterexample :
    is_protected c5_scope = false ∧
    c5_frame.decls.contains "unused" = true ∧
    generate_names c5_scope [("x", 1)] [] = some ([("x", "a")], [("a", "x")]) ∧
    List.lookup "unused" ([("x", "a")] : List (String × String)) = none :=
  ⟨rfl, rfl, rfl, rfl⟩

/-- C5 as amended: in an unprotected scope a successful `generate_names`
renames exactly the names of `reference_counts` (every locally declared
name that is referenced at least once), pairing them, in descending-count
order with ties in counter order, with the first surviving generator
candidates — the prefix of SHORTNAMES with the disallowed names struck
out.  Every assigned name comes from SHORTNAMES and avoids `disallowed`. -/
theorem C5_generate_names_amended (scope : List ScopeFrame)
    (counts : List (String × Nat)) (disallowed : List String)
    (o2n n2o : List (String × String))
    (hp : is_protected scope = false)
    (h : generate_names scope counts disallowed = some (o2n, n2o)) :
    o2n = ((most_common counts).map Prod.fst).zip
        ((SHORTNAMES.filter fun s => !disallowed.contains s).take counts.length) ∧
    n2o = ((SHORTNAMES.filter fun s => !disallowed.contains s).take
        counts.length).zip ((most_common counts).map Prod.fst) ∧
    (o2n.map Prod.fst).Perm (counts.map Prod.fst) ∧
    ∀ q ∈ o2n, q.2 ∈ SHORTNAMES ∧ disallowed.contains q.2 = false := by
  rw [generate_names_spec scope counts disallowed hp] at h
  by_cases hle : counts.length
      ≤ (SHORTNAMES.filter fun s => !disallowed.contains s).length
  · rw [if_pos hle] at h
    injection h with h'
    injection h' with h1 h2
    subst h1 h2
    have hkl : ((most_common counts).map Prod.fst).length = counts.length := by
      rw [List.length_map]
      exact (List.perm_insertionSort _ counts).length_eq
    have hvl : ((SHORTNAMES.filter fun s => !disallowed.contains s).take
        counts.length).length = counts.length := by
      rw [List.length_take]
      omega
    refine ⟨rfl, rfl, ?_, ?_⟩
    · rw [List.map_fst_zip _ _ (by omega)]
      exact (List.perm_insertionSort _ counts).map Prod.fst
    · intro q hq
      have hsnd : q.2 ∈ (SHORTNAMES.filter fun s => !disallowed.contains s).take
          counts.length := by
        obtain ⟨a, b⟩ := q
        exact (List.of_mem_zip hq).2
      have hfil : q.2 ∈ SHORTNAMES.filter fun s => !disallowed.contains s :=
        (List.take_sublist _ _).mem hsnd
      have := List.mem_filter.mp hfil
      exact ⟨this.1, by simpa using this.2⟩
  · rw [if_neg hle] at h
    cases h

/-- Witness for C5's amended theorem at a concrete scope: counts
`x ↦ 2, y ↦ 5` with `a` disallowed rename `y` (more references) to `b`
and `x` to `c`. -/
theorem C5_generate_names_amended_witness :
    ([("y", "b"), ("x", "c")] : List (String × String)) =
      ((most_common [("x", 2), ("y", 5)]).map Prod.fst).zip
        ((SHORTNAMES.filter fun s => !(["a"] : List String).contains s).take
          ([("x", 2), ("y", 5)] : List (String × Nat)).length) :=
  (C5_generate_names_amended plain_scope [("x", 2), ("y", 5)] ["a"]
    [("y", "b"), ("x", "c")] [("b", "y"), ("c", "x")] rfl rfl).1

/-- C9: whenever `generate_names` returns, its two maps are mutually
inverse — looking up an original name and then the new name round-trips,
and conversely — provided the counter's keys are distinct, which they
are for a `Counter`.  New names are distinct because the single generator
only moves forward through the duplicate-free SHORTNAMES. -/
theorem C9_rename_maps_mutually_inverse (scope : List ScopeFrame)
    (counts : List (String × Nat)) (disallowed : List String)
    (o2n n2o : List (String × String))
    (hk : (counts.map Prod.fst).Nodup)
    (h : generate_names scope counts disallowed = some (o2n, n2o)) :
    (∀ x y, o2n.lookup x = some y → n2o.lookup y = some x) ∧
    (∀ y x, n2o.lookup y = some x → o2n.lookup x = some y) := by
  cases hp : is_protected scope with
  | true =>
    rw [show generate_names scope counts disallowed
        = if is_protected scope then some ([], [])
          else generate_names_loop SHORTNAMES disallowed (most_common counts) 0 [] []
        from rfl, hp, if_pos rfl] at h
    injection h with h'
    injection h' with h1 h2
    subst h1 h2
    exact ⟨fun x y hxy => by simp [List.lookup] at hxy,
           fun y x hxy => by simp [List.lookup] at hxy⟩
  | false =>
    rw [generate_names_spec scope counts disallowed hp] at h
    by_cases hle : counts.length
        ≤ (SHORTNAMES.filter fun s => !disallowed.contains s).length
    · rw [if_pos hle] at h
      injection h with h'
      injection h' with h1 h2
      subst h1 h2
      have hkeys : ((most_common counts).map Prod.fst).Nodup :=
        (((List.perm_insertionSort _ counts).map Prod.fst).nodup_iff).mpr hk
      have hvals : ((SHORTNAMES.filter fun s => !disallowed.contains s).take
          counts.length).Nodup :=
        (List.take_sublist _ _).nodup (shortnames_nodup.filter _)
      have hlen : ((most_common counts).map Prod.fst).length
          = ((SHORTNAMES.filter fun s => !disallowed.contains s).take
              counts.length).length := by
        have h1 : (most_common counts).length = counts.length :=
          (List.perm_insertionSort _ counts).length_eq
        rw [List.length_map, List.length_take, h1]
        omega
      exact ⟨zip_lookup_swap _ _ hkeys hvals hlen,
             zip_lookup_swap _ _ hvals hkeys hlen.symm⟩
    · rw [if_neg hle] at h
      cases h

/-- Witness for C9 at a concrete scope: renaming `x ↦ a, y ↦ b` and
looking `a` up in `new_to_original` returns `x`. -/
theorem C9_rename_maps_mutually_inverse_witness :
    List.lookup "a" ([("a", "x"), ("b", "y")] : List (String × String)) = some "x" :=
  (C9_rename_maps_mutually_inverse plain_scope [("x", 2), ("y", 1)] []
    [("x", "a"), ("y", "b")] [("a", "x"), ("b", "y")] (by decide) rfl).1 "x" "a" rfl

/-- C10: `NameGenerator.next` is partial — it indexes the finite
precomputed SHORTNAMES (names of one, two or three characters only), and
returns nothing once the cursor reaches the end; the generate_names loop
likewise fails, rather than producing a longer name, whenever more names
are demanded than survive past the cursor, and so does `generate_names`
itself on an unprotected scope demanding more names than the list
holds. -/
theorem C10_name_generator_partial :
    (∀ g : NameGenerator, g.name_list.length ≤ g.index → g.next = none) ∧
    (∀ s ∈ SHORTNAMES, s.length = 1 ∨ s.length = 2 ∨ s.length = 3) ∧
    (∀ (nameList dis : List String) (pending : List (String × Nat)) (idx : Nat)
        (o2n n2o : List (String × String)),
      ((nameList.drop idx).filter (fun s => !dis.contains s)).length < pending.length →
      generate_names_loop nameList dis pending idx o2n n2o = none) ∧
    (∀ (scope : List ScopeFrame) (counts : List (String × Nat)) (dis : List String),
      is_protected scope = false →
      (SHORTNAMES.filter (fun s => !dis.contains s)).length < counts.length →
      generate_names scope counts dis = none) := by
  refine ⟨?_, ?_, ?_, ?_⟩
  · intro g hg
    rw [show g.next = (match g.name_list.get? g.index with
        | some name => some (name, ⟨g.name_list, g.index + 1⟩)
        | none => none) from rfl,
      List.get?_eq_none.mpr hg]
  · intro s hs
    rcases (build_names_list_mem DISALLOWED_NAMES s).mp hs with
      ⟨a, -, rfl⟩ | ⟨a, -, b, -, rfl, -⟩ | ⟨a, -, b, -, c, -, rfl, -⟩
    · exact Or.inl rfl
    · exact Or.inr (Or.inl rfl)
    · exact Or.inr (Or.inr rfl)
  · intro nameList dis pending idx o2n n2o hlt
    rw [generate_names_loop_spec, if_neg (by omega)]
  · intro scope counts dis hp hlt
    rw [generate_names_spec scope counts dis hp, if_neg (by omega)]

/-- C6 counterexample: the claim's alphabet starts with `A` and says the
name at index 0 is that first letter; the source's alphabet is
`string.ascii_letters + "$_"`, which starts lowercase, so the name at
index 0 is `a`. -/
theorem C6_alphabet_counterexample :
    SHORTNAMES.head? = some "a" ∧
    CLAIMED_START_CHARS.head? = some 'A' ∧
    ("a" : String) ≠ String.mk ['A'] :=
  ⟨rfl, rfl, by decide⟩

/-- C6 as amended: the generator enumerates names in shortlex order with
respect to the source's alphabets — `a–z A–Z $ _` for the first character
and that alphabet followed by `0–9` for later ones — the name at index 0
is `a`, and the listed names are exactly the one-character starts plus
the two- and three-character words over the alphabets that are not on
the blocklist. -/
theorem C6_shortlex_enumeration_amended :
    SHORTNAMES.Pairwise wordLt ∧
    SHORTNAMES.head? = some "a" ∧
    (∀ w, w ∈ SHORTNAMES ↔
      (∃ a ∈ IDENTIFIER_START_CHARS, w = String.mk [a]) ∨
      (∃ a ∈ IDENTIFIER_START_CHARS, ∃ b ∈ IDENTIFIER_CHARS,
        w = String.mk [a, b] ∧ DISALLOWED_NAMES.contains w = false) ∨
      (∃ a ∈ IDENTIFIER_START_CHARS, ∃ b ∈ IDENTIFIER_CHARS, ∃ c ∈ IDENTIFIER_CHARS,
        w = String.mk [a, b, c] ∧ DISALLOWED_NAMES.contains w = false)) :=
  ⟨shortnames_pairwise, rfl, build_names_list_mem DISALLOWED_NAMES⟩

end JSC
